import Mathlib

/-!
Verification of the palette-cycling logic of sound-reactive-leds/colors.h.

The file defines five gradient color palettes, resolves each into a 16-entry
color table (CRGBPalette16), keeps two process-wide tables currentPalette and
targetPalette plus a single-byte cycling index, and exposes two operations:
setNextColorPalette (advance the target to the next active palette) and the
per-tick blend of currentPalette toward targetPalette.

The FastLED primitives used by colors.h (addmod8, nblendPaletteTowardPalette,
gradient resolution) are library code outside this repository; they are
modelled here from the specification, as noted on each such definition.
Machine bytes are modelled as Nat with explicit reduction modulo 256.
-/

/-- One RGB color; each channel is a byte value in the range 0..255. -/
structure CRGB where
  r : Nat
  g : Nat
  b : Nat
deriving DecidableEq, Repr

instance : Inhabited CRGB := ⟨⟨0, 0, 0⟩⟩

/-- A resolved palette (CRGBPalette16): a list of 16 CRGB entries. -/
abbrev Palette := List CRGB

/-- One stop of a gradient palette definition: (position, r, g, b). -/
structure GradStop where
  pos : Nat
  r : Nat
  g : Nat
  b : Nat
deriving DecidableEq, Repr

/-- Modelled from the spec: linear interpolation of one color channel at
position p between stop positions p1 and p2 holding channel values c1, c2. -/
def interpChannel (p p1 p2 c1 c2 : Nat) : Nat :=
  if p2 ≤ p1 then c2
  else (c1 * (p2 - p) + c2 * (p - p1)) / (p2 - p1)

/-- Modelled from the spec: the interpolated color at position p on the
segment between two gradient stops. -/
def interpStop (s1 s2 : GradStop) (p : Nat) : CRGB :=
  ⟨interpChannel p s1.pos s2.pos s1.r s2.r,
   interpChannel p s1.pos s2.pos s1.g s2.g,
   interpChannel p s1.pos s2.pos s1.b s2.b⟩

/-- Modelled from the spec: sample a gradient (ordered stop list) at a
position p, interpolating within the first segment whose end covers p. -/
def sampleStops : List GradStop → Nat → CRGB
  | [], _ => default
  | [s], _ => ⟨s.r, s.g, s.b⟩
  | s1 :: s2 :: rest, p =>
    if p ≤ s2.pos then interpStop s1 s2 p else sampleStops (s2 :: rest) p

/-- Modelled from the spec: resolving a gradient palette (the CRGBPalette16
conversion done by DEFINE_GRADIENT_PALETTE assignment, FastLED code outside
this repository) produces 16 colors by evenly sampling positions 0, 17, ...,
255 across the stops. -/
def resolveGradient (stops : List GradStop) : Palette :=
  (List.range 16).map fun i => sampleStops stops (i * 17)

/-- The gradient stop data of _firePalette in colors.h. -/
def fireGradient : List GradStop :=
  [⟨0, 255, 0, 0⟩, ⟨50, 139, 0, 0⟩, ⟨100, 0, 0, 0⟩, ⟨200, 255, 140, 0⟩,
   ⟨255, 255, 215, 0⟩]

/-- The gradient stop data of _tealGreenGold in colors.h. -/
def tealGreenGoldGradient : List GradStop :=
  [⟨0, 34, 139, 34⟩, ⟨85, 0, 255, 0⟩, ⟨170, 255, 215, 0⟩, ⟨255, 255, 140, 0⟩]

/-- The gradient stop data of _redRoseLavendar in colors.h. -/
def redRoseLavendarGradient : List GradStop :=
  [⟨0, 128, 0, 0⟩, ⟨85, 210, 105, 30⟩, ⟨170, 255, 127, 80⟩,
   ⟨255, 230, 230, 250⟩]

/-- The gradient stop data of _icePalette in colors.h. -/
def iceGradient : List GradStop :=
  [⟨0, 224, 240, 255⟩, ⟨127, 31, 147, 255⟩, ⟨255, 48, 64, 72⟩]

/-- The gradient stop data of _fairyPalette in colors.h. -/
def fairyGradient : List GradStop :=
  [⟨0, 63, 57, 11⟩, ⟨127, 127, 114, 22⟩, ⟨224, 255, 227, 45⟩,
   ⟨255, 255, 255, 255⟩]

/-- CRGBPalette16 firePalette in colors.h. -/
def firePalette : Palette := resolveGradient fireGradient

/-- CRGBPalette16 tealGreenGold in colors.h. -/
def tealGreenGold : Palette := resolveGradient tealGreenGoldGradient

/-- CRGBPalette16 redRoseLavendar in colors.h. -/
def redRoseLavendar : Palette := resolveGradient redRoseLavendarGradient

/-- CRGBPalette16 icePalette in colors.h. -/
def icePalette : Palette := resolveGradient iceGradient

/-- CRGBPalette16 fairyPalette in colors.h. -/
def fairyPalette : Palette := resolveGradient fairyGradient

/-- The active palette list of colors.h: only firePalette is uncommented. -/
def activePalettes : List Palette := [firePalette]

/-- Modelled from the spec: FastLED addmod8 on byte values, as used for the
single-byte cycling index: the sum wraps at 256, then is reduced modulo m by
repeated subtraction (the reduction loop does not terminate for m = 0; the
caller model handles that case). -/
def addmod8 (a b m : Nat) : Nat := ((a + b) % 256) % m

/-- The mutable process-wide state of colors.h: currentPalette,
targetPalette and the static cycling index whichPalette (a byte). -/
structure CyclerState where
  currentPalette : Palette
  targetPalette : Palette
  whichPalette : Nat
deriving DecidableEq, Repr

/-- setNextColorPalette from colors.h: numberOfPalettes is a uint8_t count
of the active list (hence reduced modulo 256); the static index advances by
addmod8 and targetPalette is reassigned to the palette at the new index.
A zero palette count makes the addmod8 reduction loop run forever, modelled
as none. -/
def setNextColorPalette (pals : List Palette) (s : CyclerState) :
    Option CyclerState :=
  let numberOfPalettes := pals.length % 256
  if numberOfPalettes = 0 then none
  else
    let idx := addmod8 s.whichPalette 1 numberOfPalettes
    some { s with whichPalette := idx,
                  targetPalette := pals.getD idx default }

/-- Iterate setNextColorPalette K times. -/
def iterateSetNext (pals : List Palette) : Nat → CyclerState → Option CyclerState
  | 0, s => some s
  | k + 1, s => (setNextColorPalette pals s).bind (iterateSetNext pals k)

/-- Modelled from the spec: one step of the FastLED blending primitive on a
single channel: move cur a bounded step of the given magnitude toward tgt,
clamped so it lands exactly on tgt when the remaining distance is smaller. -/
def nblendChannel (cur tgt step : Nat) : Nat :=
  if cur < tgt then min (cur + step) tgt else max (cur - step) tgt

/-- Channelwise blend of one color toward another. -/
def nblendCRGB (c t : CRGB) (step : Nat) : CRGB :=
  ⟨nblendChannel c.r t.r step, nblendChannel c.g t.g step,
   nblendChannel c.b t.b step⟩

/-- Modelled from the spec: nblendPaletteTowardPalette (FastLED code outside
this repository) advances every channel of cur toward the corresponding
channel of tgt by a bounded step, in place; modelled as an entrywise map. -/
def nblendPaletteTowardPalette (cur tgt : Palette) (step : Nat) : Palette :=
  List.zipWith (fun c t => nblendCRGB c t step) cur tgt

/-- Iterate the Blend-Step operation (step 12, as called in
cycleColorPalette) k times against a fixed target. -/
def blendIter : Nat → Palette → Palette → Palette
  | 0, cur, _ => cur
  | k + 1, cur, tgt => blendIter k (nblendPaletteTowardPalette cur tgt 12) tgt

/-- The two timer-gated actions of cycleColorPalette in colors.h. -/
inductive CyclerOp where
  | advanceTarget
  | blendStep
deriving DecidableEq, Repr

/-- One gated action of cycleColorPalette applied to the state. -/
def stepOp (pals : List Palette) (s : CyclerState) : CyclerOp → Option CyclerState
  | .advanceTarget => setNextColorPalette pals s
  | .blendStep =>
    some { s with currentPalette :=
                    nblendPaletteTowardPalette s.currentPalette s.targetPalette 12 }

/-- Run a sequence of gated actions of cycleColorPalette. -/
def runOps (pals : List Palette) : List CyclerOp → CyclerState → Option CyclerState
  | [], s => some s
  | op :: ops, s => (stepOp pals s op).bind (runOps pals ops)

/-- The startup state of colors.h: currentPalette and targetPalette are
initialized to the first active palette; the static index whichPalette to
the byte value of -1, that is 255. -/
def initState : CyclerState :=
  ⟨activePalettes.getD 0 default, activePalettes.getD 0 default, 255⟩

/-- Distance between two channel values. -/
def chanDist (a b : Nat) : Nat := max a b - min a b

/-- Largest channel distance between two colors. -/
def distCRGB (c t : CRGB) : Nat :=
  max (chanDist c.r t.r) (max (chanDist c.g t.g) (chanDist c.b t.b))

/-- Largest channel distance between two palettes (entrywise). -/
def maxDist (cur tgt : Palette) : Nat :=
  ((cur.zip tgt).map fun p => distCRGB p.1 p.2).foldr max 0

/-- The channel value n is the result of moving c a bounded step toward t:
by exactly the step while the distance is at least the step, and exactly
onto t when the remaining distance is smaller. -/
def movesTowardBy (step c t n : Nat) : Prop :=
  (step ≤ chanDist c t → chanDist n t + step = chanDist c t ∧ chanDist n c = step) ∧
  (chanDist c t < step → n = t)

/-- The channel value n lies between c and t and no farther from t than c:
no overshoot and no crossing to the other side of the target. -/
def noOvershoot (c t n : Nat) : Prop :=
  chanDist n t ≤ chanDist c t ∧ min c t ≤ n ∧ n ≤ max c t

theorem nblendChannel_moves (c t s : Nat) :
    movesTowardBy s c t (nblendChannel c t s) := by
  unfold movesTowardBy nblendChannel chanDist
  split <;> omega

theorem nblendChannel_noOvershoot (c t s : Nat) :
    noOvershoot c t (nblendChannel c t s) := by
  unfold noOvershoot nblendChannel chanDist
  split <;> omega

theorem nblendChannel_self (t s : Nat) : nblendChannel t t s = t := by
  unfold nblendChannel
  split <;> omega

theorem nblendCRGB_self (c : CRGB) (s : Nat) : nblendCRGB c c s = c := by
  cases c with
  | mk r g b => simp [nblendCRGB, nblendChannel_self]

theorem nblendPalette_self (p : Palette) (s : Nat) :
    nblendPaletteTowardPalette p p s = p := by
  induction p with
  | nil => rfl
  | cons c cs ih =>
    simp only [nblendPaletteTowardPalette, List.zipWith_cons_cons, nblendCRGB_self]
    simpa [nblendPaletteTowardPalette] using ih

theorem getD_nblendPalette (cur tgt : Palette) (s i : Nat)
    (hc : i < cur.length) (ht : i < tgt.length) :
    (nblendPaletteTowardPalette cur tgt s).getD i default =
      nblendCRGB (cur.getD i default) (tgt.getD i default) s := by
  have hlen : i < (nblendPaletteTowardPalette cur tgt s).length := by
    simp [nblendPaletteTowardPalette, List.length_zipWith]
    omega
  rw [List.getD_eq_getElem _ _ hlen, List.getD_eq_getElem _ _ hc,
    List.getD_eq_getElem _ _ ht]
  simp [nblendPaletteTowardPalette]

theorem chanDist_nblendChannel (c t s : Nat) :
    chanDist (nblendChannel c t s) t = chanDist c t - s := by
  unfold nblendChannel chanDist
  split <;> omega

theorem distCRGB_nblendCRGB (c t : CRGB) (s : Nat) :
    distCRGB (nblendCRGB c t s) t = distCRGB c t - s := by
  cases c with
  | mk cr cg cb =>
    cases t with
    | mk tr tg tb =>
      simp only [distCRGB, nblendCRGB, chanDist_nblendChannel]
      omega

theorem distCRGB_eq_zero_iff (c t : CRGB) : distCRGB c t = 0 ↔ c = t := by
  cases c with
  | mk cr cg cb =>
    cases t with
    | mk tr tg tb =>
      simp only [distCRGB, chanDist, CRGB.mk.injEq]
      omega

theorem maxDist_nil (tgt : Palette) : maxDist [] tgt = 0 := rfl

theorem maxDist_nil_right (cur : Palette) : maxDist cur [] = 0 := by
  cases cur <;> rfl

theorem maxDist_cons (c t : CRGB) (cs ts : Palette) :
    maxDist (c :: cs) (t :: ts) = max (distCRGB c t) (maxDist cs ts) := by
  simp [maxDist]

theorem maxDist_nblendPalette (cur tgt : Palette) (s : Nat) :
    maxDist (nblendPaletteTowardPalette cur tgt s) tgt = maxDist cur tgt - s := by
  induction cur generalizing tgt with
  | nil => simp [nblendPaletteTowardPalette, maxDist_nil]
  | cons c cs ih =>
    cases tgt with
    | nil => simp [nblendPaletteTowardPalette, maxDist_nil_right]
    | cons t ts =>
      simp only [nblendPaletteTowardPalette, List.zipWith_cons_cons, maxDist_cons]
      have h1 := distCRGB_nblendCRGB c t s
      have h2 := ih ts
      simp only [nblendPaletteTowardPalette] at h2
      omega

theorem maxDist_eq_zero_iff (cur tgt : Palette) (hlen : cur.length = tgt.length) :
    maxDist cur tgt = 0 ↔ cur = tgt := by
  induction cur generalizing tgt with
  | nil =>
    cases tgt with
    | nil => simp [maxDist_nil]
    | cons t ts => simp at hlen
  | cons c cs ih =>
    cases tgt with
    | nil => simp at hlen
    | cons t ts =>
      simp only [List.length_cons, Nat.succ.injEq] at hlen
      rw [maxDist_cons]
      constructor
      · intro h
        have h1 : distCRGB c t = 0 := by omega
        have h2 : maxDist cs ts = 0 := by omega
        rw [(distCRGB_eq_zero_iff c t).mp h1, (ih ts hlen).mp h2]
      · intro h
        cases h
        have h1 : distCRGB c c = 0 := (distCRGB_eq_zero_iff c c).mpr rfl
        have h2 : maxDist cs cs = 0 := (ih cs rfl).mpr rfl
        omega

theorem length_nblendPalette (cur tgt : Palette) (s : Nat) :
    (nblendPaletteTowardPalette cur tgt s).length = min cur.length tgt.length := by
  simp [nblendPaletteTowardPalette, List.length_zipWith]

theorem length_blendIter (k : Nat) (cur tgt : Palette)
    (hlen : cur.length = tgt.length) :
    (blendIter k cur tgt).length = tgt.length := by
  induction k generalizing cur with
  | zero => simpa [blendIter] using hlen
  | succ k ih =>
    simp only [blendIter]
    exact ih _ (by rw [length_nblendPalette]; omega)

theorem maxDist_blendIter (k : Nat) (cur tgt : Palette) :
    maxDist (blendIter k cur tgt) tgt = maxDist cur tgt - 12 * k := by
  induction k generalizing cur with
  | zero => simp [blendIter]
  | succ k ih =>
    simp only [blendIter]
    rw [ih, maxDist_nblendPalette]
    omega

theorem addmod8_lt (a b m : Nat) (h : 0 < m) : addmod8 a b m < m :=
  Nat.mod_lt _ h

theorem addmod8_eq_of_small (a b m : Nat) (h : a + b < 256) :
    addmod8 a b m = (a + b) % m := by
  unfold addmod8
  rw [Nat.mod_eq_of_lt h]

theorem setNext_eq_some (pals : List Palette) (s : CyclerState)
    (h0 : 0 < pals.length) (h255 : pals.length ≤ 255) :
    setNextColorPalette pals s =
      some { s with
              whichPalette := addmod8 s.whichPalette 1 pals.length,
              targetPalette :=
                pals.getD (addmod8 s.whichPalette 1 pals.length) default } := by
  have hm : pals.length % 256 = pals.length := Nat.mod_eq_of_lt (by omega)
  simp only [setNextColorPalette, hm]
  rw [if_neg (by omega)]

/-- Claim C1: one Blend-Step call (nblendPaletteTowardPalette with step
argument 12) moves each channel value of the current palette by a fixed step
of magnitude 12 toward the corresponding channel value of the target
palette, per color channel independently, clamped so a channel whose
remaining distance is less than 12 lands exactly on the target value. -/
theorem blend_step_moves_each_channel_by_step (cur tgt : Palette) (i : Nat)
    (hc : i < cur.length) (ht : i < tgt.length) :
    movesTowardBy 12 (cur.getD i default).r (tgt.getD i default).r
        ((nblendPaletteTowardPalette cur tgt 12).getD i default).r ∧
    movesTowardBy 12 (cur.getD i default).g (tgt.getD i default).g
        ((nblendPaletteTowardPalette cur tgt 12).getD i default).g ∧
    movesTowardBy 12 (cur.getD i default).b (tgt.getD i default).b
        ((nblendPaletteTowardPalette cur tgt 12).getD i default).b := by
  rw [getD_nblendPalette cur tgt 12 i hc ht]
  exact ⟨nblendChannel_moves _ _ _, nblendChannel_moves _ _ _,
    nblendChannel_moves _ _ _⟩

/-- Witness for claim C1 at a concrete palette pair. -/
theorem blend_step_moves_each_channel_by_step_witness :
    movesTowardBy 12 (([(⟨0, 100, 250⟩ : CRGB)] : Palette).getD 0 default).r
        (([(⟨50, 95, 255⟩ : CRGB)] : Palette).getD 0 default).r
        ((nblendPaletteTowardPalette [⟨0, 100, 250⟩] [⟨50, 95, 255⟩] 12).getD
          0 default).r ∧
    movesTowardBy 12 (([(⟨0, 100, 250⟩ : CRGB)] : Palette).getD 0 default).g
        (([(⟨50, 95, 255⟩ : CRGB)] : Palette).getD 0 default).g
        ((nblendPaletteTowardPalette [⟨0, 100, 250⟩] [⟨50, 95, 255⟩] 12).getD
          0 default).g ∧
    movesTowardBy 12 (([(⟨0, 100, 250⟩ : CRGB)] : Palette).getD 0 default).b
        (([(⟨50, 95, 255⟩ : CRGB)] : Palette).getD 0 default).b
        ((nblendPaletteTowardPalette [⟨0, 100, 250⟩] [⟨50, 95, 255⟩] 12).getD
          0 default).b :=
  blend_step_moves_each_channel_by_step [⟨0, 100, 250⟩] [⟨50, 95, 255⟩] 0
    (by decide) (by decide)

/-- Claim C3: one Blend-Step call never moves a channel of the current
palette past the corresponding channel of the target: afterwards each
channel is no farther from its target than before and stays between its old
value and the target value. -/
theorem blend_step_no_overshoot (cur tgt : Palette) (i : Nat)
    (hc : i < cur.length) (ht : i < tgt.length) :
    noOvershoot (cur.getD i default).r (tgt.getD i default).r
        ((nblendPaletteTowardPalette cur tgt 12).getD i default).r ∧
    noOvershoot (cur.getD i default).g (tgt.getD i default).g
        ((nblendPaletteTowardPalette cur tgt 12).getD i default).g ∧
    noOvershoot (cur.getD i default).b (tgt.getD i default).b
        ((nblendPaletteTowardPalette cur tgt 12).getD i default).b := by
  rw [getD_nblendPalette cur tgt 12 i hc ht]
  exact ⟨nblendChannel_noOvershoot _ _ _, nblendChannel_noOvershoot _ _ _,
    nblendChannel_noOvershoot _ _ _⟩

/-- Witness for claim C3 at a concrete palette pair. -/
theorem blend_step_no_overshoot_witness :
    noOvershoot (([(⟨200, 10, 3⟩ : CRGB)] : Palette).getD 0 default).r
        (([(⟨190, 10, 240⟩ : CRGB)] : Palette).getD 0 default).r
        ((nblendPaletteTowardPalette [⟨200, 10, 3⟩] [⟨190, 10, 240⟩] 12).getD
          0 default).r ∧
    noOvershoot (([(⟨200, 10, 3⟩ : CRGB)] : Palette).getD 0 default).g
        (([(⟨190, 10, 240⟩ : CRGB)] : Palette).getD 0 default).g
        ((nblendPaletteTowardPalette [⟨200, 10, 3⟩] [⟨190, 10, 240⟩] 12).getD
          0 default).g ∧
    noOvershoot (([(⟨200, 10, 3⟩ : CRGB)] : Palette).getD 0 default).b
        (([(⟨190, 10, 240⟩ : CRGB)] : Palette).getD 0 default).b
        ((nblendPaletteTowardPalette [⟨200, 10, 3⟩] [⟨190, 10, 240⟩] 12).getD
          0 default).b :=
  blend_step_no_overshoot [⟨200, 10, 3⟩] [⟨190, 10, 240⟩] 0
    (by decide) (by decide)

/-- Claim C7: a Blend-Step call at the fixed point, where the current
palette already equals the target palette, leaves the current palette
unchanged. -/
theorem blend_step_idempotent_at_fixpoint (p : Palette) :
    nblendPaletteTowardPalette p p 12 = p :=
  nblendPalette_self p 12

/-- Claim C4: with the target palette fixed and both palettes of equal
length, iterating the Blend-Step operation makes the current palette exactly
equal to the target after ceil(d/12) invocations, where d is the largest
per-channel distance, and no earlier. -/
theorem blend_converges_in_ceil_div_steps (cur tgt : Palette)
    (hlen : cur.length = tgt.length) :
    blendIter ((maxDist cur tgt + 11) / 12) cur tgt = tgt ∧
    ∀ k, 12 * k < maxDist cur tgt → blendIter k cur tgt ≠ tgt := by
  constructor
  · have h1 := maxDist_blendIter ((maxDist cur tgt + 11) / 12) cur tgt
    have h2 : maxDist (blendIter ((maxDist cur tgt + 11) / 12) cur tgt) tgt = 0 := by
      omega
    exact (maxDist_eq_zero_iff _ _ (length_blendIter _ _ _ hlen)).mp h2
  · intro k hk heq
    have h1 := maxDist_blendIter k cur tgt
    rw [heq] at h1
    have h2 : maxDist tgt tgt = 0 := (maxDist_eq_zero_iff tgt tgt rfl).mpr rfl
    omega

/-- Witness for claim C4: distance 30 needs exactly 3 calls, not 2. -/
theorem blend_converges_in_ceil_div_steps_witness :
    blendIter ((maxDist [(⟨0, 0, 0⟩ : CRGB)] [(⟨30, 0, 0⟩ : CRGB)] + 11) / 12)
        [(⟨0, 0, 0⟩ : CRGB)] [(⟨30, 0, 0⟩ : CRGB)] = [(⟨30, 0, 0⟩ : CRGB)] ∧
    blendIter 2 [(⟨0, 0, 0⟩ : CRGB)] [(⟨30, 0, 0⟩ : CRGB)] ≠
        [(⟨30, 0, 0⟩ : CRGB)] :=
  ⟨(blend_converges_in_ceil_div_steps [⟨0, 0, 0⟩] [⟨30, 0, 0⟩] rfl).1,
   (blend_converges_in_ceil_div_steps [⟨0, 0, 0⟩] [⟨30, 0, 0⟩] rfl).2 2
     (by decide)⟩

/-- Claim C9: each of the five gradient palettes defined in colors.h
resolves to exactly 16 colors, every channel of which is a byte value in the
range 0..255. -/
theorem resolved_palettes_are_16_valid_colors :
    ∀ p ∈ [firePalette, tealGreenGold, redRoseLavendar, icePalette,
            fairyPalette],
      p.length = 16 ∧ ∀ c ∈ p, c.r ≤ 255 ∧ c.g ≤ 255 ∧ c.b ≤ 255 := by
  decide

/-- Witness for claim C9 at the fire palette. -/
theorem resolved_palettes_are_16_valid_colors_witness :
    firePalette.length = 16 :=
  (resolved_palettes_are_16_valid_colors firePalette (by decide)).1

theorem iterateSetNext_spec (pals : List Palette) (h255 : pals.length ≤ 255) :
    ∀ K : Nat, ∀ s : CyclerState, s.whichPalette < pals.length →
      ∃ s', iterateSetNext pals K s = some s' ∧
        s'.whichPalette = (s.whichPalette + K) % pals.length ∧
        (0 < K → s'.targetPalette =
          pals.getD ((s.whichPalette + K) % pals.length) default) := by
  intro K
  induction K with
  | zero =>
    intro s hidx
    exact ⟨s, rfl, by simp [Nat.mod_eq_of_lt hidx], by omega⟩
  | succ K ih =>
    intro s hidx
    have h0 : 0 < pals.length := by omega
    have hidx1 : addmod8 s.whichPalette 1 pals.length < pals.length :=
      addmod8_lt _ _ _ h0
    have hval : addmod8 s.whichPalette 1 pals.length =
        (s.whichPalette + 1) % pals.length :=
      addmod8_eq_of_small _ _ _ (by omega)
    obtain ⟨s', h1, h2, h3⟩ :=
      ih { s with
            whichPalette := addmod8 s.whichPalette 1 pals.length,
            targetPalette :=
              pals.getD (addmod8 s.whichPalette 1 pals.length) default } hidx1
    refine ⟨s', ?_, ?_, fun _ => ?_⟩
    · simp only [iterateSetNext, setNext_eq_some pals s h0 h255]
      exact h1
    · rw [h2]
      simp only [hval, Nat.mod_add_mod]
      congr 1
      omega
    · rcases Nat.eq_zero_or_pos K with hK | hK
      · subst hK
        simp only [iterateSetNext] at h1
        have hs : _ = s' := Option.some.inj h1
        rw [← hs]
        simp [hval]
      · rw [h3 hK]
        simp only [hval, Nat.mod_add_mod]
        congr 2
        omega

/-- Claim C2 (amended): for an active palette list of length L with
L ≤ 255 and a cycling index in range (initial index < L), K calls of
setNextColorPalette leave the index at (initial + K) mod L and, for K ≥ 1,
the target palette at the active-list entry at that index. As stated the
claim fails from the startup index 255 (the byte value of -1) when L does
not divide 256. -/
theorem advance_target_mod_formula (pals : List Palette) (K : Nat)
    (s : CyclerState) (h255 : pals.length ≤ 255)
    (hidx : s.whichPalette < pals.length) :
    ∃ s', iterateSetNext pals K s = some s' ∧
      s'.whichPalette = (s.whichPalette + K) % pals.length ∧
      (0 < K → s'.targetPalette =
        pals.getD ((s.whichPalette + K) % pals.length) default) :=
  iterateSetNext_spec pals h255 K s hidx

/-- Witness for claim C2: three calls on a 2-entry list from index 0. -/
theorem advance_target_mod_formula_witness :
    ∃ s', iterateSetNext [([⟨1, 1, 1⟩] : Palette), [⟨2, 2, 2⟩]] 3
        ⟨[], [], 0⟩ = some s' ∧
      s'.whichPalette = ((⟨[], [], 0⟩ : CyclerState).whichPalette + 3) %
        [([⟨1, 1, 1⟩] : Palette), [⟨2, 2, 2⟩]].length ∧
      (0 < 3 → s'.targetPalette =
        [([⟨1, 1, 1⟩] : Palette), [⟨2, 2, 2⟩]].getD
          (((⟨[], [], 0⟩ : CyclerState).whichPalette + 3) %
            [([⟨1, 1, 1⟩] : Palette), [⟨2, 2, 2⟩]].length) default) :=
  advance_target_mod_formula [([⟨1, 1, 1⟩] : Palette), [⟨2, 2, 2⟩]] 3
    ⟨[], [], 0⟩ (by decide) (by decide)

/-- Counterexample to claim C2 as stated: from the startup index 255 (the
byte value of -1) with a 3-entry active list, one call of
setNextColorPalette wraps the byte sum 255 + 1 to 0, so the index becomes
0 mod 3 = 0, while the claimed formula gives (255 + 1) mod 3 = 1. -/
theorem advance_target_mod_formula_counterexample :
    (iterateSetNext (List.replicate 3 ([] : Palette)) 1
        ⟨[], [], 255⟩).map CyclerState.whichPalette = some 0 ∧
    (255 + 1) % (List.replicate 3 ([] : Palette)).length ≠ 0 := by
  decide

/-- Claim C5 (amended): for a non-empty active palette list of at most 255
entries, every call of setNextColorPalette is total and leaves the cycling
index strictly below the list length, so the indexing of the active list is
in bounds; an empty active list makes the modulo-wrap of the cycling index
undefined (the addmod8 reduction loop never terminates, modelled as none).
As stated the claim fails for a non-empty list of 256 entries, whose
single-byte count truncates to zero. -/
theorem setNext_total_and_in_bounds (pals : List Palette) (s : CyclerState) :
    (0 < pals.length → pals.length ≤ 255 →
      ∃ s', setNextColorPalette pals s = some s' ∧
        s'.whichPalette < pals.length) ∧
    (pals.length = 0 → setNextColorPalette pals s = none) := by
  constructor
  · intro h0 h255
    exact ⟨_, setNext_eq_some pals s h0 h255, addmod8_lt _ _ _ h0⟩
  · intro h
    simp [setNextColorPalette, h]

/-- Witness for claim C5 at a concrete one-entry list. -/
theorem setNext_total_and_in_bounds_witness :
    ∃ s', setNextColorPalette [([] : Palette)] ⟨[], [], 255⟩ = some s' ∧
      s'.whichPalette < [([] : Palette)].length :=
  (setNext_total_and_in_bounds [([] : Palette)] ⟨[], [], 255⟩).1
    (by decide) (by decide)

/-- Counterexample to claim C5 as stated: a non-empty active list of 256
entries is a further latent failure mode, because the single-byte palette
count sizeof-quotient truncates 256 to 0 and the index wrap is again
undefined. -/
theorem setNext_nonempty_not_total_counterexample :
    0 < (List.replicate 256 ([] : Palette)).length ∧
    setNextColorPalette (List.replicate 256 ([] : Palette)) ⟨[], [], 255⟩ =
      none := by
  refine ⟨by rw [List.length_replicate]; omega, ?_⟩
  rw [setNextColorPalette, List.length_replicate]
  rw [if_pos (by omega)]

/-- Claim C8: setNextColorPalette mutates only the target palette and the
cycling index; every successful call leaves the current palette unchanged. -/
theorem setNext_preserves_currentPalette (pals : List Palette)
    (s s' : CyclerState) (h : setNextColorPalette pals s = some s') :
    s'.currentPalette = s.currentPalette := by
  simp only [setNextColorPalette] at h
  by_cases h0 : pals.length % 256 = 0
  · rw [if_pos h0] at h
    exact Option.noConfusion h
  · rw [if_neg h0] at h
    have hs := Option.some.inj h
    rw [← hs]

/-- Witness for claim C8 at a concrete call. -/
theorem setNext_preserves_currentPalette_witness :
    (⟨[], [], 0⟩ : CyclerState).currentPalette =
      (⟨[], [], 255⟩ : CyclerState).currentPalette :=
  setNext_preserves_currentPalette [([] : Palette)] ⟨[], [], 255⟩ ⟨[], [], 0⟩
    (by decide)

theorem runOps_single_fire_invariant (ops : List CyclerOp) :
    ∀ s : CyclerState, s.currentPalette = firePalette →
      s.targetPalette = firePalette →
      ∃ s', runOps [firePalette] ops s = some s' ∧
        s'.currentPalette = firePalette ∧ s'.targetPalette = firePalette := by
  induction ops with
  | nil =>
    intro s hc ht
    exact ⟨s, rfl, hc, ht⟩
  | cons op ops ih =>
    intro s hc ht
    cases op with
    | advanceTarget =>
      have hidx : addmod8 s.whichPalette 1 [firePalette].length = 0 :=
        Nat.mod_one _
      obtain ⟨s', h1, h2, h3⟩ :=
        ih { s with
              whichPalette := addmod8 s.whichPalette 1 [firePalette].length,
              targetPalette :=
                [firePalette].getD
                  (addmod8 s.whichPalette 1 [firePalette].length) default }
          hc (by rw [hidx]; rfl)
      refine ⟨s', ?_, h2, h3⟩
      simp only [runOps, stepOp,
        setNext_eq_some [firePalette] s (by simp) (by simp)]
      exact h1
    | blendStep =>
      obtain ⟨s', h1, h2, h3⟩ :=
        ih { s with
              currentPalette :=
                nblendPaletteTowardPalette s.currentPalette s.targetPalette 12 }
          (by rw [hc, ht]; exact nblendPalette_self _ 12) ht
      refine ⟨s', ?_, h2, h3⟩
      simp only [runOps, stepOp]
      exact h1

/-- Claim C6: with the single-entry active list configured in colors.h
(only firePalette), any sequence of Advance-Target and Blend-Step actions
from the startup state keeps the target palette equal to firePalette and
leaves the current palette equal to firePalette with no drift; each
reassignment of the target is a harmless no-op. -/
theorem single_entry_active_list_no_drift (ops : List CyclerOp) :
    ∃ s', runOps activePalettes ops initState = some s' ∧
      s'.currentPalette = firePalette ∧ s'.targetPalette = firePalette := by
  have hcur : initState.currentPalette = firePalette := rfl
  have htgt : initState.targetPalette = firePalette := rfl
  exact runOps_single_fire_invariant ops initState hcur htgt

/-- Claim C10: the static cycling index starts at the byte value of -1,
that is 255; the very first call of setNextColorPalette wraps it to 0 and
reassigns the target palette to the first active-list entry, which is the
palette both buffers were started on, and only the second call advances the
target to the second entry when the list has more than one. -/
theorem first_advance_wraps_index_to_zero (pals : List Palette)
    (h0 : 0 < pals.length) (h255 : pals.length ≤ 255) :
    initState.whichPalette = 255 ∧
    ∃ s1, setNextColorPalette pals
        ⟨pals.getD 0 default, pals.getD 0 default, 255⟩ = some s1 ∧
      s1.whichPalette = 0 ∧ s1.targetPalette = pals.getD 0 default ∧
      s1.currentPalette = pals.getD 0 default ∧
      (1 < pals.length →
        ∃ s2, setNextColorPalette pals s1 = some s2 ∧
          s2.whichPalette = 1 ∧ s2.targetPalette = pals.getD 1 default) := by
  have hidx : addmod8 255 1 pals.length = 0 := by
    unfold addmod8
    norm_num
  refine ⟨rfl, _, setNext_eq_some pals _ h0 h255, ?_, ?_, ?_, ?_⟩
  · exact hidx
  · rw [show addmod8
        (⟨pals.getD 0 default, pals.getD 0 default, 255⟩ :
          CyclerState).whichPalette 1 pals.length = 0 from hidx]
  · rfl
  · intro h1L
    have hidx2 : addmod8 0 1 pals.length = 1 := by
      rw [addmod8_eq_of_small _ _ _ (by omega)]
      exact Nat.mod_eq_of_lt (by omega)
    refine ⟨_, setNext_eq_some pals _ h0 h255, ?_, ?_⟩
    · simp [hidx, hidx2]
    · simp [hidx, hidx2]

/-- Witness for claim C10 with a concrete 2-entry active list. -/
theorem first_advance_wraps_index_to_zero_witness :
    initState.whichPalette = 255 ∧
    ∃ s1, setNextColorPalette [([⟨1, 1, 1⟩] : Palette), [⟨2, 2, 2⟩]]
        ⟨[([⟨1, 1, 1⟩] : Palette), [⟨2, 2, 2⟩]].getD 0 default,
         [([⟨1, 1, 1⟩] : Palette), [⟨2, 2, 2⟩]].getD 0 default, 255⟩ =
        some s1 ∧
      s1.whichPalette = 0 ∧
      s1.targetPalette =
        [([⟨1, 1, 1⟩] : Palette), [⟨2, 2, 2⟩]].getD 0 default ∧
      s1.currentPalette =
        [([⟨1, 1, 1⟩] : Palette), [⟨2, 2, 2⟩]].getD 0 default ∧
      (1 < [([⟨1, 1, 1⟩] : Palette), [⟨2, 2, 2⟩]].length →
        ∃ s2, setNextColorPalette [([⟨1, 1, 1⟩] : Palette), [⟨2, 2, 2⟩]] s1 =
            some s2 ∧
          s2.whichPalette = 1 ∧
          s2.targetPalette =
            [([⟨1, 1, 1⟩] : Palette), [⟨2, 2, 2⟩]].getD 1 default) :=
  first_advance_wraps_index_to_zero [([⟨1, 1, 1⟩] : Palette), [⟨2, 2, 2⟩]]
    (by decide) (by decide)
